import Mathlib

/-!
Verification development for the descheduler core (jklaw90/descheduler).

The Go sources are embedded shallowly:
* `pkg/descheduler/strategies/node_taint.go` — the taint-violation reference
  strategy (`RemovePodsViolatingNodeTaintsRun` below and its helpers);
* `pkg/descheduler/descheduler.go` — the control loop
  (`RunDeschedulerStrategies`, `initializeStratagies`, `cachedClient`);
* `pkg/descheduler/strategy_migration.go` — `validateNamespaceArgs`.

Code of the repository that the sources call but that is not part of the
excerpt (the evictions pod evictor, the pod-listing and toleration
utilities, the priority resolution) is modelled from the specification; each
such definition carries a doc comment saying so.  External nondeterminism
(API failures, cache read failures, the admission predicate) is passed in as
an explicit environment (`TickEnv`).

Ghost instrumentation: `TickState.attempted` records every call made to the
evictor and `TickState.observed` records every pod key returned by a
pod-listing call; neither influences any other field.
-/

/-- Node taint (k8s core/v1 `Taint`). -/
structure Taint where
  Key : String
  Value : String
  Effect : String
deriving DecidableEq

/-- Pod toleration (k8s core/v1 `Toleration`). -/
structure Toleration where
  Key : String
  Operator : String
  Value : String
  Effect : String
deriving DecidableEq

/-- The pod fields the embedded code reads. -/
structure Pod where
  Name : String
  Namespace : String
  NodeName : String
  Labels : List (String × String)
  Tolerations : List Toleration
deriving DecidableEq

/-- The node fields the embedded code reads. -/
structure Node where
  Name : String
  Taints : List Taint
deriving DecidableEq

/-- Modelled from the spec (k8s toleration semantics; the helper lives in
`pkg/utils`, which is not under `src/`): a toleration tolerates a taint when
its effect and key match (empty means wildcard) and its operator accepts the
taint's value ("Exists" matches any value, "Equal" or empty requires
equality). -/
def Toleration.ToleratesTaint (t : Toleration) (taint : Taint) : Bool :=
  if t.Effect.length > 0 && t.Effect != taint.Effect then false
  else if t.Key.length > 0 && t.Key != taint.Key then false
  else if t.Operator == "" || t.Operator == "Equal" then t.Value == taint.Value
  else if t.Operator == "Exists" then true
  else false

/-- Modelled from the spec (`pkg/utils`, not under `src/`): some toleration
in the list tolerates the taint. -/
def TolerationsTolerateTaint (tolerations : List Toleration) (taint : Taint) : Bool :=
  tolerations.any fun t => t.ToleratesTaint taint

/-- Modelled from the spec (`pkg/utils`, not under `src/`): every taint that
passes the filter is tolerated by some toleration in the list. -/
def TolerationsTolerateTaintsWithFilter (tolerations : List Toleration)
    (taints : List Taint) (applyFilter : Taint → Bool) : Bool :=
  taints.all fun taint => !applyFilter taint || TolerationsTolerateTaint tolerations taint

/-- The taint filter the taint strategy passes (node_taint.go line 138):
only "NoSchedule" taints must be tolerated. -/
def noScheduleTaintFilter (taint : Taint) : Bool :=
  taint.Effect == "NoSchedule"

/-- `api.Namespaces`: include/exclude namespace lists. -/
structure Namespaces where
  Include : List String
  Exclude : List String
deriving DecidableEq

/-- `api.StrategyParameters` (the fields node_taint.go reads).  A label
selector is embedded by its matchLabels component. -/
structure StrategyParameters where
  Namespaces : Option Namespaces
  ThresholdPriority : Option Int
  ThresholdPriorityClassName : String
  LabelSelector : Option (List (String × String))
  NodeFit : Bool
deriving DecidableEq

/-- `api.DeschedulerStrategy`: per-strategy configuration. -/
structure DeschedulerStrategy where
  Enabled : Bool
  Params : Option StrategyParameters
deriving DecidableEq

/-- Embeds `validateRemovePodsViolatingNodeTaintsParams`
(node_taint.go lines 36–50). -/
def validateRemovePodsViolatingNodeTaintsParams :
    Option StrategyParameters → Except String Unit
  | none => Except.ok ()
  | some params =>
    if (match params.Namespaces with
        | some ns => !ns.Include.isEmpty && !ns.Exclude.isEmpty
        | none => false) then
      Except.error "only one of Include/Exclude namespaces can be set"
    else if params.ThresholdPriority.isSome && params.ThresholdPriorityClassName != "" then
      Except.error "only one of thresholdPriority and thresholdPriorityClassName can be set"
    else Except.ok ()

/-- Embeds `validateNamespaceArgs` (strategy_migration.go lines 140–147). -/
def validateNamespaceArgs : Option Namespaces → Except String Unit
  | some ns =>
    if !ns.Include.isEmpty && !ns.Exclude.isEmpty then
      Except.error "only one of Include/Exclude namespaces can be set"
    else Except.ok ()
  | none => Except.ok ()

/-- k8s `SystemCriticalPriority`. -/
def SystemCriticalPriority : Int := 2000000000

/-- Modelled from the spec (`pkg/utils`, not under `src/`): resolve the
priority threshold — a class name resolves through the environment, a
numeric value is taken as is, absence defaults to the system-critical
priority; a threshold above the system-critical priority is an error. -/
def GetPriorityFromStrategyParams (resolvePriorityClass : String → Except Unit Int) :
    Option StrategyParameters → Except Unit Int
  | none => Except.ok SystemCriticalPriority
  | some params =>
    match
      (if params.ThresholdPriorityClassName != "" then
        resolvePriorityClass params.ThresholdPriorityClassName
      else
        match params.ThresholdPriority with
        | some v => Except.ok v
        | none => Except.ok SystemCriticalPriority) with
    | Except.error e => Except.error e
    | Except.ok priority =>
      if SystemCriticalPriority < priority then Except.error ()
      else Except.ok priority

/-- One eviction decision: which pod, on which node, for which reason. -/
structure EvictionRecord where
  podNamespace : String
  podName : String
  nodeName : String
  reason : String
deriving DecidableEq

/-- Per-tick state threaded through the strategies: the admission
controller's counters and caps (modelled from the spec; the evictions
package is not under `src/`), the pod store strategies read (the dry-run
snapshot, or the live cache view), and observation logs.  `attempted` and
`observed` are ghost logs; `apiCalls` records eviction calls issued against
the real cluster. -/
structure TickState where
  dryRun : Bool
  maxPodsToEvictPerNode : Option Nat
  maxPodsToEvictPerNamespace : Option Nat
  store : List Pod
  nodepodCount : List (String × Nat)
  namespacePodCount : List (String × Nat)
  totalEvicted : Nat
  evicted : List EvictionRecord
  attempted : List EvictionRecord
  apiCalls : List (String × String)
  observed : List (String × String)
deriving DecidableEq

/-- Environment of one tick: the outcomes of every external call the tick
makes.  `readyNodes` is the ready-node listing; `realPods` the live cache's
pod list; `dryRunSetupFails` whether building the dry-run snapshot client or
its assignment index fails (descheduler.go lines 243–254); `listPodsFails`
whether the assignment-index lookup for a node name fails; `evictApiOk`
whether a real eviction API call succeeds; `evictableFn` the admission
controller's `IsEvictable` predicate given threshold and node-fit flag
(modelled as an environment, the evictions package is not under `src/`);
`resolvePriorityClass` resolution of a priority class name. -/
structure TickEnv where
  readyNodes : Except Unit (List Node)
  realPods : List Pod
  dryRunSetupFails : Bool
  listPodsFails : String → Bool
  evictApiOk : Pod → Bool
  evictableFn : Int → Bool → Pod → Bool
  resolvePriorityClass : String → Except Unit Int

/-- First-match count lookup in an association list (zero when absent). -/
def lookupCount (counts : List (String × Nat)) (key : String) : Nat :=
  match counts.lookup key with
  | some n => n
  | none => 0

/-- Increment a counter. -/
def bumpCount (counts : List (String × Nat)) (key : String) : List (String × Nat) :=
  (key, lookupCount counts key + 1) :: counts

/-- One more eviction would exceed the cap (unset cap means uncapped). -/
def capReached : Option Nat → Nat → Bool
  | some maxAllowed, current => decide (maxAllowed < current + 1)
  | none, _ => false

/-- The store holds a pod with this namespace/name key. -/
def storeHasKey (store : List Pod) (ns nm : String) : Bool :=
  store.any fun q => q.Namespace == ns && q.Name == nm

/-- Delete every pod with this namespace/name key from the store (the
dry-run reactor's `Tracker().Delete`, descheduler.go line 109). -/
def deleteFromStore (store : List Pod) (ns nm : String) : List Pod :=
  store.filter fun q => !(q.Namespace == ns && q.Name == nm)

/-- Build the record of an eviction decision. -/
def mkEvictionRecord (pod : Pod) (node : Node) (reason : String) : EvictionRecord :=
  { podNamespace := pod.Namespace, podName := pod.Name
    nodeName := node.Name, reason := reason }

/-- Result of one `EvictPod` call: the Go `(bool, error)` pair plus the
updated evictor state. -/
structure EvictResult where
  evicted : Bool
  isErr : Bool
  state : TickState

/-- Ghost: log that the strategy called the evictor. -/
def attemptedBump (st : TickState) (pod : Pod) (node : Node) (reason : String) : TickState :=
  { st with attempted := st.attempted ++ [mkEvictionRecord pod node reason] }

/-- On success the evictor bumps the per-node, per-namespace and total
counters and logs the eviction with its reason. -/
def recordEviction (st : TickState) (pod : Pod) (node : Node) (reason : String) : TickState :=
  { st with
    nodepodCount := bumpCount st.nodepodCount node.Name
    namespacePodCount := bumpCount st.namespacePodCount pod.Namespace
    totalEvicted := st.totalEvicted + 1
    evicted := st.evicted ++ [mkEvictionRecord pod node reason] }

/-- Modelled from the spec (`evictions.PodEvictor.EvictPod`, not under
`src/`): a call at a reached per-node or per-namespace cap is a silent skip
`(false, nil)`; otherwise the eviction is issued — in dry-run mode it is the
snapshot reactor's delete (descheduler.go lines 99–116), which fails only if
the pod is absent from the snapshot store; in real mode it is the eviction
API call, whose outcome the environment decides and which is recorded in
`apiCalls`; a failed call returns an error without touching any counter. -/
def EvictPod (env : TickEnv) (st : TickState) (pod : Pod) (node : Node)
    (reason : String) : EvictResult :=
  if capReached st.maxPodsToEvictPerNode (lookupCount st.nodepodCount node.Name) then
    ⟨false, false, attemptedBump st pod node reason⟩
  else if capReached st.maxPodsToEvictPerNamespace (lookupCount st.namespacePodCount pod.Namespace) then
    ⟨false, false, attemptedBump st pod node reason⟩
  else if st.dryRun then
    if storeHasKey st.store pod.Namespace pod.Name then
      ⟨true, false,
        recordEviction
          (attemptedBump { st with store := deleteFromStore st.store pod.Namespace pod.Name }
            pod node reason) pod node reason⟩
    else ⟨false, true, attemptedBump st pod node reason⟩
  else if env.evictApiOk pod then
    ⟨true, false,
      recordEviction
        (attemptedBump { st with apiCalls := st.apiCalls ++ [(pod.Namespace, pod.Name)] }
          pod node reason) pod node reason⟩
  else ⟨false, true, attemptedBump st pod node reason⟩

/-- The pods of the store assigned to a node, filtered. -/
def listedPodsFor (store : List Pod) (nodeName : String) (filter : Pod → Bool) : List Pod :=
  (store.filter fun p => p.NodeName == nodeName).filter filter

/-- Modelled from the spec (`podutil.ListAllPodsOnANode`, not under `src/`):
look the node up in the cached assignment index — which can fail — and
filter the result with the strategy's pod filter. -/
def ListAllPodsOnANode (env : TickEnv) (st : TickState) (nodeName : String)
    (filter : Pod → Bool) : Except Unit (List Pod) :=
  if env.listPodsFails nodeName then Except.error ()
  else Except.ok (listedPodsFor st.store nodeName filter)

/-- matchLabels selector semantics: every selector pair occurs among the
pod's labels; no selector matches everything. -/
def labelSelectorMatches : Option (List (String × String)) → Pod → Bool
  | none, _ => true
  | some kvs, pod => kvs.all fun kv => pod.Labels.contains kv

/-- node_taint.go lines 92–98: the include list (empty when params or
namespaces are nil). -/
def includedNamespacesOf : Option StrategyParameters → List String
  | some p =>
    match p.Namespaces with
    | some ns => ns.Include
    | none => []
  | none => []

/-- node_taint.go lines 92–98: the exclude list. -/
def excludedNamespacesOf : Option StrategyParameters → List String
  | some p =>
    match p.Namespaces with
    | some ns => ns.Exclude
    | none => []
  | none => []

/-- node_taint.go line 99: the label selector, if any. -/
def labelSelectorOf : Option StrategyParameters → Option (List (String × String))
  | some p => p.LabelSelector
  | none => none

/-- node_taint.go lines 108–111: node fit flag, default false. -/
def nodeFitOf : Option StrategyParameters → Bool
  | some p => p.NodeFit
  | none => false

/-- The strategy's selectability filter (node_taint.go lines 113–120,
`podutil.BuildFilterFunc` modelled from the spec): AND of the admission
predicate, namespace include/exclude sets and label selector. -/
def podFilterFor (env : TickEnv) (cfg : DeschedulerStrategy) (thresholdPriority : Int)
    (pod : Pod) : Bool :=
  env.evictableFn thresholdPriority (nodeFitOf cfg.Params) pod
  && ((includedNamespacesOf cfg.Params).isEmpty
      || (includedNamespacesOf cfg.Params).contains pod.Namespace)
  && ((excludedNamespacesOf cfg.Params).isEmpty
      || !((excludedNamespacesOf cfg.Params).contains pod.Namespace))
  && labelSelectorMatches (labelSelectorOf cfg.Params) pod

/-- node_taint.go lines 134–146: the per-node pod loop — a violator is
evicted; an eviction error breaks out of the loop for this node. -/
def processPodsOnNode (env : TickEnv) (node : Node) : TickState → List Pod → TickState
  | st, [] => st
  | st, pod :: rest =>
    if TolerationsTolerateTaintsWithFilter pod.Tolerations node.Taints noScheduleTaintFilter then
      processPodsOnNode env node st rest
    else
      let r := EvictPod env st pod node "NodeTaint"
      if r.isErr then r.state else processPodsOnNode env node r.state rest

/-- Ghost: log the keys a pod-listing call returned. -/
def observeListed (st : TickState) (nodeName : String) (filter : Pod → Bool) : TickState :=
  { st with
    observed := st.observed ++ (listedPodsFor st.store nodeName filter).map
      fun p => (p.Namespace, p.Name) }

/-- node_taint.go lines 126–147: the node loop — a pod-listing error makes
the whole strategy run return at once; otherwise the node's pods are
processed and the loop continues with the next node. -/
def processNodes (env : TickEnv) (filter : Pod → Bool) : TickState → List Node → TickState
  | st, [] => st
  | st, node :: rest =>
    match ListAllPodsOnANode env st node.Name filter with
    | Except.error _ => st
    | Except.ok pods =>
      processNodes env filter (processPodsOnNode env node (observeListed st node.Name filter) pods) rest

/-- Embeds `RemovePodsViolatingNodeTaintsStrategy.Run` (node_taint.go lines
86–148): re-validate the parameters, resolve the priority threshold, build
the pod filter, then walk the nodes. -/
def RemovePodsViolatingNodeTaintsRun (env : TickEnv) (cfg : DeschedulerStrategy)
    (nodes : List Node) (st : TickState) : TickState :=
  match validateRemovePodsViolatingNodeTaintsParams cfg.Params with
  | Except.error _ => st
  | Except.ok _ =>
    match GetPriorityFromStrategyParams env.resolvePriorityClass cfg.Params with
    | Except.error _ => st
    | Except.ok thresholdPriority =>
      processNodes env (podFilterFor env cfg thresholdPriority) st nodes

/-- The fixed registration order of `initializeStratagies`
(descheduler.go lines 300–363). -/
def registeredStrategyNames : List String :=
  ["RemoveDuplicates", "LowNodeUtilization", "HighNodeUtilization",
   "RemovePodsViolatingInterPodAntiAffinity", "RemovePodsViolatingNodeAffinity",
   "RemovePodsViolatingNodeTaints", "RemovePodsHavingTooManyRestarts",
   "PodLifeTime", "RemovePodsViolatingTopologySpreadConstraint", "RemoveFailedPods"]

/-- Each `New…Strategy` constructor looks its own name up in the policy's
strategy map and fails with `errors.New("")` when absent
(e.g. node_taint.go lines 57–66); `initializeStratagies` stops at the first
failing constructor. -/
def initStrategiesFrom (strategyList : List (String × DeschedulerStrategy)) :
    List String → Except String (List (String × DeschedulerStrategy))
  | [] => Except.ok []
  | n :: rest =>
    match strategyList.lookup n with
    | none => Except.error ""
    | some cfg =>
      match initStrategiesFrom strategyList rest with
      | Except.error e => Except.error e
      | Except.ok tail => Except.ok ((n, cfg) :: tail)

/-- Embeds `initializeStratagies` (descheduler.go lines 300–363): construct
every registered strategy, in registration order, from the policy's
strategy map. -/
def initializeStratagies (strategyList : List (String × DeschedulerStrategy)) :
    Except String (List (String × DeschedulerStrategy)) :=
  initStrategiesFrom strategyList registeredStrategyNames

/-- The tick-relevant configuration of the run: server flags and policy
limits (descheduler.go lines 240, 271–272, 292). -/
structure LoopConfig where
  DryRun : Bool
  DeschedulingIntervalZero : Bool
  MaxNoOfPodsToEvictPerNode : Option Nat
  MaxNoOfPodsToEvictPerNamespace : Option Nat
deriving DecidableEq

/-- Embeds `cachedClient` (descheduler.go lines 90–164): the dry-run
snapshot store is seeded with copies of the live cache's pods.  (The
eviction-intercepting reactor it installs is the dry-run branch of
`EvictPod`.) -/
def cachedClient (realPods : List Pod) : List Pod := realPods

/-- The pod evictor built fresh inside every tick (descheduler.go lines
266–279): zeroed counters, the tick's caps, and — in dry-run mode — the
fresh snapshot store. -/
def initialTickState (cfg : LoopConfig) (env : TickEnv) : TickState :=
  { dryRun := cfg.DryRun
    maxPodsToEvictPerNode := cfg.MaxNoOfPodsToEvictPerNode
    maxPodsToEvictPerNamespace := cfg.MaxNoOfPodsToEvictPerNamespace
    store := if cfg.DryRun then cachedClient env.realPods else env.realPods
    nodepodCount := []
    namespacePodCount := []
    totalEvicted := 0
    evicted := []
    attempted := []
    apiCalls := []
    observed := [] }

/-- descheduler.go lines 281–287: run every constructed strategy in order;
an enabled one runs (each as an instance of the reference taint strategy,
the only strategy under `src/` and, per the spec, the template all follow),
a disabled one is logged as an error and skipped. -/
def runStrategyList (env : TickEnv) (nodes : List Node) :
    TickState → List (String × DeschedulerStrategy) → TickState
  | st, [] => st
  | st, (_, cfg) :: rest =>
    if cfg.Enabled then
      runStrategyList env nodes (RemovePodsViolatingNodeTaintsRun env cfg nodes st) rest
    else runStrategyList env nodes st rest

/-- Observable outcome of one tick.  `stopRequested` records whether the
tick closed the stop channel. -/
structure TickResult where
  evicted : List EvictionRecord
  attempted : List EvictionRecord
  apiCalls : List (String × String)
  totalEvicted : Nat
  stopRequested : Bool
deriving DecidableEq

/-- A tick that ran no strategy. -/
def emptyTickResult (stop : Bool) : TickResult :=
  { evicted := [], attempted := [], apiCalls := [], totalEvicted := 0
    stopRequested := stop }

/-- Embeds the tick closure of `RunDeschedulerStrategies` (descheduler.go
lines 222–295): a ready-node listing failure or a cluster of at most one
ready node closes the stop channel and ends the tick; a dry-run snapshot or
assignment-index build failure ends the tick early *without* closing the
stop channel (lines 243–254 return before line 292); otherwise a fresh pod
evictor (and, in dry-run mode, a fresh snapshot store) is built, every
strategy runs, and the stop channel is closed exactly when the configured
interval is zero. -/
def runTick (cfg : LoopConfig) (env : TickEnv)
    (strats : List (String × DeschedulerStrategy)) : TickResult :=
  match env.readyNodes with
  | Except.error _ => emptyTickResult true
  | Except.ok nodes =>
    if nodes.length ≤ 1 then emptyTickResult true
    else if cfg.DryRun && env.dryRunSetupFails then emptyTickResult false
    else
      let stF := runStrategyList env nodes (initialTickState cfg env) strats
      { evicted := stF.evicted, attempted := stF.attempted, apiCalls := stF.apiCalls
        totalEvicted := stF.totalEvicted, stopRequested := cfg.DeschedulingIntervalZero }

/-- The tick is on the dry-run early-return path (descheduler.go lines
243–254): nodes were read fine and the cluster is big enough, but building
the snapshot or its index failed. -/
def drySetupFailurePath (cfg : LoopConfig) (env : TickEnv) : Bool :=
  match env.readyNodes with
  | Except.error _ => false
  | Except.ok nodes => !(nodes.length ≤ 1) && (cfg.DryRun && env.dryRunSetupFails)

/-- Embeds `wait.NonSlidingUntil(f, interval, stopChannel)` driving the tick
closure: before each tick the stop channel is checked (external cancellation
closes it between ticks, `cancel`); the tick runs; if it closed the stop
channel the loop ends.  `fuel` bounds the unrolling; `i` is the tick index,
selecting that tick's environment. -/
def runTickLoop (cfg : LoopConfig) (strats : List (String × DeschedulerStrategy))
    (envs : Nat → TickEnv) (cancel : Nat → Bool) : Nat → Nat → List TickResult
  | _, 0 => []
  | i, fuel + 1 =>
    if cancel i then []
    else
      let r := runTick cfg (envs i) strats
      if r.stopRequested then [r]
      else r :: runTickLoop cfg strats envs cancel (i + 1) fuel

/-- Embeds `RunDeschedulerStrategies` (descheduler.go lines 166–298): build
the assignment index (`buildIndexOk`, lines 177–180), initialize the
strategies (line 217), then drive the tick loop; the function itself returns
an error only from those two initialization steps and otherwise returns nil
(line 297). -/
def RunDeschedulerStrategies (buildIndexOk : Bool)
    (strategyList : List (String × DeschedulerStrategy)) (cfg : LoopConfig)
    (envs : Nat → TickEnv) (cancel : Nat → Bool) (fuel : Nat) :
    Except String (List TickResult) :=
  if !buildIndexOk then Except.error "build get pods assigned to node function error"
  else
    match initializeStratagies strategyList with
    | Except.error e => Except.error e
    | Except.ok strats => Except.ok (runTickLoop cfg strats envs cancel 0 fuel)

/-- The eviction calls the taint strategy makes on an error-free run: for
each node in order, the selectable pods assigned to it that do not tolerate
all of the node's NoSchedule taints, in list order, reason "NodeTaint". -/
def taintAttemptsOn (store : List Pod) (filter : Pod → Bool) :
    List Node → List EvictionRecord
  | [] => []
  | node :: rest =>
    ((listedPodsFor store node.Name filter).filter fun p =>
        !TolerationsTolerateTaintsWithFilter p.Tolerations node.Taints noScheduleTaintFilter).map
      (fun p => mkEvictionRecord p node "NodeTaint")
    ++ taintAttemptsOn store filter rest

/-- How a dry-run tick state may evolve: the mode and the real-cluster call
log are untouched, the snapshot store only shrinks, every newly observed pod
key was in the store beforehand, the eviction log only grows, and an evicted
pod's key stays out of the snapshot store once removed. -/
def dryEvolves (st st' : TickState) : Prop :=
  st'.dryRun = st.dryRun ∧
  st'.apiCalls = st.apiCalls ∧
  (∀ a b, storeHasKey st'.store a b = true → storeHasKey st.store a b = true) ∧
  (∃ d, st'.observed = st.observed ++ d ∧
    ∀ x ∈ d, storeHasKey st.store x.1 x.2 = true) ∧
  (∃ e, st'.evicted = st.evicted ++ e) ∧
  (∀ r, r ∈ st'.evicted →
    (r ∈ st.evicted → storeHasKey st.store r.podNamespace r.podName = false) →
    storeHasKey st'.store r.podNamespace r.podName = false)

/-- A node with one NoSchedule taint on key "k". -/
def fixNode1 : Node := { Name := "n1", Taints := [{ Key := "k", Value := "", Effect := "NoSchedule" }] }

/-- An untainted node. -/
def fixNode2 : Node := { Name := "n2", Taints := [] }

/-- An "Exists"-operator toleration on key "k". -/
def fixTolExists : Toleration := { Key := "k", Operator := "Exists", Value := "", Effect := "" }

/-- A pod on n1 with no tolerations. -/
def fixPod1 : Pod :=
  { Name := "p1", Namespace := "d", NodeName := "n1", Labels := [], Tolerations := [] }

/-- A pod on n1 tolerating "k" via "Exists". -/
def fixPod2 : Pod :=
  { Name := "p2", Namespace := "d", NodeName := "n1", Labels := [], Tolerations := [fixTolExists] }

/-- A second toleration-free pod on n1. -/
def fixPodY : Pod :=
  { Name := "py", Namespace := "d", NodeName := "n1", Labels := [], Tolerations := [] }

/-- A benign tick environment: two ready nodes, two pods, no failures. -/
def fixEnv : TickEnv :=
  { readyNodes := Except.ok [fixNode1, fixNode2]
    realPods := [fixPod1, fixPod2]
    dryRunSetupFails := false
    listPodsFails := fun _ => false
    evictApiOk := fun _ => true
    evictableFn := fun _ _ _ => true
    resolvePriorityClass := fun _ => Except.error () }

def fixEnvNodesFail : TickEnv := { fixEnv with readyNodes := Except.error () }

def fixEnvOneNode : TickEnv := { fixEnv with readyNodes := Except.ok [fixNode1] }

def fixEnvListFailN2 : TickEnv := { fixEnv with listPodsFails := fun s => s == "n2" }

def fixEnvDrySetupFails : TickEnv := { fixEnv with dryRunSetupFails := true }

def fixEnvEvictP1Fails : TickEnv := { fixEnv with evictApiOk := fun p => p.Name != "p1" }

def fixCfgReal : LoopConfig :=
  { DryRun := false, DeschedulingIntervalZero := false
    MaxNoOfPodsToEvictPerNode := none, MaxNoOfPodsToEvictPerNamespace := none }

def fixCfgRealOnce : LoopConfig := { fixCfgReal with DeschedulingIntervalZero := true }

def fixCfgDry : LoopConfig := { fixCfgReal with DryRun := true }

def fixCfgDryOnce : LoopConfig := { fixCfgDry with DeschedulingIntervalZero := true }

/-- An enabled taint strategy with nil parameters. -/
def fixStrategy : String × DeschedulerStrategy :=
  ("RemovePodsViolatingNodeTaints", { Enabled := true, Params := none })

/-- A disabled strategy entry. -/
def fixDisabledStrategy : String × DeschedulerStrategy :=
  ("RemoveDuplicates", { Enabled := false, Params := none })

/-- A policy strategy map containing every registered strategy, enabled. -/
def fixFullStrategyList : List (String × DeschedulerStrategy) :=
  registeredStrategyNames.map fun n => (n, { Enabled := true, Params := none })

/-- A policy strategy map referencing only an unknown strategy name. -/
def fixUnknownOnlyList : List (String × DeschedulerStrategy) :=
  [("Foo", { Enabled := true, Params := none })]

/-- Parameters with both namespace lists non-empty. -/
def fixBadParams : StrategyParameters :=
  { Namespaces := some { Include := ["a"], Exclude := ["b"] }
    ThresholdPriority := none, ThresholdPriorityClassName := ""
    LabelSelector := none, NodeFit := false }

/-- The parameter values nil params default to in the strategy's Run:
empty include and exclude sets, no label selector, no numeric threshold, no
class name, node fit disabled. -/
def defaultTaintParams : StrategyParameters :=
  { Namespaces := some { Include := [], Exclude := [] }
    ThresholdPriority := none, ThresholdPriorityClassName := ""
    LabelSelector := none, NodeFit := false }

theorem EvictPod_common (env : TickEnv) (st : TickState) (pod : Pod) (node : Node)
    (reason : String) :
    (EvictPod env st pod node reason).state.dryRun = st.dryRun ∧
    (EvictPod env st pod node reason).state.maxPodsToEvictPerNode = st.maxPodsToEvictPerNode ∧
    (EvictPod env st pod node reason).state.maxPodsToEvictPerNamespace = st.maxPodsToEvictPerNamespace ∧
    (EvictPod env st pod node reason).state.observed = st.observed ∧
    (EvictPod env st pod node reason).state.attempted =
      st.attempted ++ [mkEvictionRecord pod node reason] := by
  unfold EvictPod
  split_ifs <;> simp [attemptedBump, recordEviction]

theorem EvictPod_nodry (env : TickEnv) (st : TickState) (pod : Pod) (node : Node)
    (reason : String) (hdry : st.dryRun = false) (hok : env.evictApiOk pod = true) :
    (EvictPod env st pod node reason).isErr = false ∧
    (EvictPod env st pod node reason).state.store = st.store := by
  unfold EvictPod
  split_ifs with h1 h2 h3 h4 <;>
    simp_all [attemptedBump, recordEviction]

theorem processPodsOnNode_nodry (env : TickEnv) (node : Node) (pods : List Pod)
    (st : TickState) (hdry : st.dryRun = false) (hok : ∀ p, env.evictApiOk p = true) :
    (processPodsOnNode env node st pods).dryRun = false ∧
    (processPodsOnNode env node st pods).store = st.store ∧
    (processPodsOnNode env node st pods).observed = st.observed ∧
    (processPodsOnNode env node st pods).attempted =
      st.attempted ++
        ((pods.filter fun p =>
            !TolerationsTolerateTaintsWithFilter p.Tolerations node.Taints noScheduleTaintFilter).map
          fun p => mkEvictionRecord p node "NodeTaint") := by
  induction pods generalizing st with
  | nil => simp [processPodsOnNode, hdry]
  | cons pod rest ih =>
    by_cases htol :
        TolerationsTolerateTaintsWithFilter pod.Tolerations node.Taints noScheduleTaintFilter = true
    · have h := ih st hdry
      simpa [processPodsOnNode, htol, List.filter_cons] using h
    · have htol' :
          TolerationsTolerateTaintsWithFilter pod.Tolerations node.Taints noScheduleTaintFilter
            = false := by
        revert htol; cases TolerationsTolerateTaintsWithFilter pod.Tolerations node.Taints
          noScheduleTaintFilter <;> simp
      have hevict := EvictPod_nodry env st pod node "NodeTaint" hdry (hok pod)
      have hcommon := EvictPod_common env st pod node "NodeTaint"
      have hdry' : (EvictPod env st pod node "NodeTaint").state.dryRun = false := by
        rw [hcommon.1, hdry]
      have h := ih (EvictPod env st pod node "NodeTaint").state hdry'
      refine ⟨?_, ?_, ?_, ?_⟩ <;>
        simp [processPodsOnNode, htol', hevict.1, h.1, h.2.1, h.2.2.1, h.2.2.2,
          hevict.2, hcommon.2.2.2.1, hcommon.2.2.2.2, List.filter_cons]

theorem processNodes_nodry (env : TickEnv) (filter : Pod → Bool) (nodes : List Node)
    (st : TickState) (hdry : st.dryRun = false) (hok : ∀ p, env.evictApiOk p = true)
    (hlist : ∀ s, env.listPodsFails s = false) :
    (processNodes env filter st nodes).dryRun = false ∧
    (processNodes env filter st nodes).store = st.store ∧
    (processNodes env filter st nodes).attempted =
      st.attempted ++ taintAttemptsOn st.store filter nodes := by
  induction nodes generalizing st with
  | nil => simp [processNodes, hdry, taintAttemptsOn]
  | cons node rest ih =>
    have hsucc : ListAllPodsOnANode env st node.Name filter
        = Except.ok (listedPodsFor st.store node.Name filter) := by
      simp [ListAllPodsOnANode, hlist]
    have hobs1 : (observeListed st node.Name filter).dryRun = false := by
      simp [observeListed, hdry]
    have hobs2 : (observeListed st node.Name filter).store = st.store := by
      simp [observeListed]
    have hobs3 : (observeListed st node.Name filter).attempted = st.attempted := by
      simp [observeListed]
    have hp := processPodsOnNode_nodry env node (listedPodsFor st.store node.Name filter)
      (observeListed st node.Name filter) hobs1 hok
    have hih := ih (processPodsOnNode env node (observeListed st node.Name filter)
      (listedPodsFor st.store node.Name filter)) hp.1
    have hstore2 : (processPodsOnNode env node (observeListed st node.Name filter)
        (listedPodsFor st.store node.Name filter)).store = st.store := by
      rw [hp.2.1, hobs2]
    refine ⟨?_, ?_, ?_⟩
    · simp only [processNodes, hsucc]
      exact hih.1
    · simp only [processNodes, hsucc]
      rw [hih.2.1, hstore2]
    · simp only [processNodes, hsucc]
      rw [hih.2.2, hstore2, hp.2.2.2, hobs3, taintAttemptsOn, List.append_assoc]

theorem EvictPod_nodry_evicted (env : TickEnv) (st : TickState) (pod : Pod) (node : Node)
    (reason : String) (hdry : st.dryRun = false) (hok : env.evictApiOk pod = true) :
    ∃ e, (EvictPod env st pod node reason).state.evicted = st.evicted ++ e ∧
      ∀ r ∈ e, r = mkEvictionRecord pod node reason := by
  unfold EvictPod
  rw [hdry, hok]
  by_cases h1 : capReached st.maxPodsToEvictPerNode (lookupCount st.nodepodCount node.Name) = true
  · exact ⟨[], by simp [h1, attemptedBump], by simp⟩
  · by_cases h2 : capReached st.maxPodsToEvictPerNamespace
        (lookupCount st.namespacePodCount pod.Namespace) = true
    · exact ⟨[], by simp [h1, h2, attemptedBump], by simp⟩
    · exact ⟨[mkEvictionRecord pod node reason],
        by simp [h1, h2, attemptedBump, recordEviction], by simp⟩

theorem processPodsOnNode_nodry_evicted (env : TickEnv) (node : Node) (pods : List Pod)
    (st : TickState) (hdry : st.dryRun = false) (hok : ∀ p, env.evictApiOk p = true) :
    ∃ e, (processPodsOnNode env node st pods).evicted = st.evicted ++ e ∧
      ∀ r ∈ e, r ∈ (pods.filter fun p =>
          !TolerationsTolerateTaintsWithFilter p.Tolerations node.Taints noScheduleTaintFilter).map
        fun p => mkEvictionRecord p node "NodeTaint" := by
  induction pods generalizing st with
  | nil => exact ⟨[], by simp [processPodsOnNode], by simp⟩
  | cons pod rest ih =>
    by_cases htol :
        TolerationsTolerateTaintsWithFilter pod.Tolerations node.Taints noScheduleTaintFilter = true
    · obtain ⟨e, he, hsub⟩ := ih st hdry
      refine ⟨e, ?_, ?_⟩
      · simpa [processPodsOnNode, htol] using he
      · simpa [List.filter_cons, htol] using hsub
    · have htol' :
          TolerationsTolerateTaintsWithFilter pod.Tolerations node.Taints noScheduleTaintFilter
            = false := by
        revert htol; cases TolerationsTolerateTaintsWithFilter pod.Tolerations node.Taints
          noScheduleTaintFilter <;> simp
      have hcommon := EvictPod_common env st pod node "NodeTaint"
      have hevict := EvictPod_nodry env st pod node "NodeTaint" hdry (hok pod)
      have hdry' : (EvictPod env st pod node "NodeTaint").state.dryRun = false := by
        rw [hcommon.1, hdry]
      obtain ⟨e0, he0, hsub0⟩ := EvictPod_nodry_evicted env st pod node "NodeTaint" hdry (hok pod)
      obtain ⟨e1, he1, hsub1⟩ := ih (EvictPod env st pod node "NodeTaint").state hdry'
      refine ⟨e0 ++ e1, ?_, ?_⟩
      · simp [processPodsOnNode, htol', hevict.1, he1, he0]
      · intro r hr
        rcases List.mem_append.mp hr with h | h
        · rw [hsub0 r h]
          simp [List.filter_cons, htol']
        · have := hsub1 r h
          simp only [List.filter_cons, htol']
          simp only [Bool.not_false, if_true, List.map_cons, List.mem_cons]
          exact Or.inr (by simpa using this)

theorem processNodes_nodry_evicted (env : TickEnv) (filter : Pod → Bool) (nodes : List Node)
    (st : TickState) (hdry : st.dryRun = false) (hok : ∀ p, env.evictApiOk p = true)
    (hlist : ∀ s, env.listPodsFails s = false) :
    ∃ e, (processNodes env filter st nodes).evicted = st.evicted ++ e ∧
      ∀ r ∈ e, r ∈ taintAttemptsOn st.store filter nodes := by
  induction nodes generalizing st with
  | nil => exact ⟨[], by simp [processNodes], by simp⟩
  | cons node rest ih =>
    have hsucc : ListAllPodsOnANode env st node.Name filter
        = Except.ok (listedPodsFor st.store node.Name filter) := by
      simp [ListAllPodsOnANode, hlist]
    have hobs1 : (observeListed st node.Name filter).dryRun = false := by
      simp [observeListed, hdry]
    have hobs4 : (observeListed st node.Name filter).evicted = st.evicted := by
      simp [observeListed]
    have hp := processPodsOnNode_nodry env node (listedPodsFor st.store node.Name filter)
      (observeListed st node.Name filter) hobs1 hok
    have hstore2 : (processPodsOnNode env node (observeListed st node.Name filter)
        (listedPodsFor st.store node.Name filter)).store = st.store := by
      rw [hp.2.1]; simp [observeListed]
    obtain ⟨e0, he0, hsub0⟩ := processPodsOnNode_nodry_evicted env node
      (listedPodsFor st.store node.Name filter) (observeListed st node.Name filter) hobs1 hok
    obtain ⟨e1, he1, hsub1⟩ := ih (processPodsOnNode env node (observeListed st node.Name filter)
      (listedPodsFor st.store node.Name filter)) hp.1
    refine ⟨e0 ++ e1, ?_, ?_⟩
    · simp only [processNodes, hsucc]
      rw [he1, he0, hobs4, List.append_assoc]
    · intro r hr
      rw [taintAttemptsOn]
      rcases List.mem_append.mp hr with h | h
      · exact List.mem_append_left _ (hsub0 r h)
      · refine List.mem_append_right _ ?_
        have := hsub1 r h
        rwa [hstore2] at this

/-- C3: in an environment where pod listing and eviction calls succeed (and
outside dry-run mode), the taint strategy calls the evictor with reason
"NodeTaint" exactly for those pods that pass its selectability filter on a
ready node and whose tolerations do not cover every NoSchedule taint of that
node (`taintAttemptsOn` enumerates exactly those pods, in node and list
order); moreover every pod the run evicts is one of those calls, so a pod
tolerating all NoSchedule taints — e.g. via an "Exists" toleration on the
tainted key — is never evicted by this strategy. -/
theorem taint_strategy_evict_calls_iff_untolerated
    (env : TickEnv) (cfg : DeschedulerStrategy) (nodes : List Node) (st : TickState)
    (thr : Int)
    (hdry : st.dryRun = false)
    (hok : ∀ p, env.evictApiOk p = true)
    (hlist : ∀ s, env.listPodsFails s = false)
    (hval : validateRemovePodsViolatingNodeTaintsParams cfg.Params = Except.ok ())
    (hpri : GetPriorityFromStrategyParams env.resolvePriorityClass cfg.Params
      = Except.ok thr) :
    (RemovePodsViolatingNodeTaintsRun env cfg nodes st).attempted =
      st.attempted ++ taintAttemptsOn st.store (podFilterFor env cfg thr) nodes ∧
    ∃ e, (RemovePodsViolatingNodeTaintsRun env cfg nodes st).evicted = st.evicted ++ e ∧
      ∀ r ∈ e, r ∈ taintAttemptsOn st.store (podFilterFor env cfg thr) nodes := by
  unfold RemovePodsViolatingNodeTaintsRun
  rw [hval, hpri]
  exact ⟨(processNodes_nodry env (podFilterFor env cfg thr) nodes st hdry hok hlist).2.2,
    processNodes_nodry_evicted env (podFilterFor env cfg thr) nodes st hdry hok hlist⟩

/-- Witness for C3: a node with a NoSchedule taint on "k", a tolerationless
pod and a pod with an "Exists" toleration on "k"; exactly the former is
attempted (and evicted), with reason "NodeTaint". -/
theorem taint_strategy_evict_calls_iff_untolerated_witness :
    (RemovePodsViolatingNodeTaintsRun fixEnv { Enabled := true, Params := none }
        [fixNode1, fixNode2] (initialTickState fixCfgReal fixEnv)).attempted =
      [] ++ taintAttemptsOn (initialTickState fixCfgReal fixEnv).store
        (podFilterFor fixEnv { Enabled := true, Params := none } SystemCriticalPriority)
        [fixNode1, fixNode2] ∧
    taintAttemptsOn (initialTickState fixCfgReal fixEnv).store
        (podFilterFor fixEnv { Enabled := true, Params := none } SystemCriticalPriority)
        [fixNode1, fixNode2] =
      [{ podNamespace := "d", podName := "p1", nodeName := "n1", reason := "NodeTaint" }] := by
  have h := taint_strategy_evict_calls_iff_untolerated fixEnv
    { Enabled := true, Params := none } [fixNode1, fixNode2]
    (initialTickState fixCfgReal fixEnv) SystemCriticalPriority
    (by decide) (fun p => rfl) (fun s => rfl) rfl rfl
  exact ⟨h.1, by decide⟩

theorem EvictPod_err (env : TickEnv) (st : TickState) (pod : Pod) (node : Node)
    (reason : String) (hdry : st.dryRun = false)
    (hcap1 : st.maxPodsToEvictPerNode = none)
    (hcap2 : st.maxPodsToEvictPerNamespace = none)
    (hfail : env.evictApiOk pod = false) :
    (EvictPod env st pod node reason).isErr = true := by
  unfold EvictPod
  rw [hdry, hfail, hcap1, hcap2]
  simp [capReached]

/-- C6: if, with uncapped counters outside dry-run mode, the eviction of a
violating pod `y` on a node fails while every earlier eviction on that node
succeeded, the remaining pods `ys` on the node are abandoned — processing
the node is identical to processing it with `ys` dropped — while the node
loop still continues with the next node after the strategy's per-node
processing, whatever it did. -/
theorem taint_strategy_abandons_node_on_eviction_error
    (env : TickEnv) (node : Node) (st : TickState) (xs ys : List Pod) (y : Pod)
    (filter : Pod → Bool) (rest : List Node)
    (hdry : st.dryRun = false)
    (hcap1 : st.maxPodsToEvictPerNode = none)
    (hcap2 : st.maxPodsToEvictPerNamespace = none)
    (hxs : ∀ p ∈ xs, env.evictApiOk p = true)
    (hy : TolerationsTolerateTaintsWithFilter y.Tolerations node.Taints noScheduleTaintFilter
      = false)
    (hyerr : env.evictApiOk y = false)
    (hlistok : env.listPodsFails node.Name = false) :
    processPodsOnNode env node st (xs ++ y :: ys) = processPodsOnNode env node st (xs ++ [y]) ∧
    processNodes env filter st (node :: rest) =
      processNodes env filter
        (processPodsOnNode env node (observeListed st node.Name filter)
          (listedPodsFor st.store node.Name filter)) rest := by
  constructor
  · induction xs generalizing st with
    | nil =>
      have herr := EvictPod_err env st y node "NodeTaint" hdry hcap1 hcap2 hyerr
      simp [processPodsOnNode, hy, herr]
    | cons x xs ih =>
      by_cases htol :
          TolerationsTolerateTaintsWithFilter x.Tolerations node.Taints noScheduleTaintFilter
            = true
      · simp only [List.cons_append, processPodsOnNode, htol, if_true]
        exact ih st hdry hcap1 hcap2 fun p hp => hxs p (List.mem_cons_of_mem x hp)
      · have htol' :
            TolerationsTolerateTaintsWithFilter x.Tolerations node.Taints noScheduleTaintFilter
              = false := by
          revert htol; cases TolerationsTolerateTaintsWithFilter x.Tolerations node.Taints
            noScheduleTaintFilter <;> simp
        have hcommon := EvictPod_common env st x node "NodeTaint"
        have hevict := EvictPod_nodry env st x node "NodeTaint" hdry
          (hxs x (List.mem_cons_self x xs))
        have hdry' : (EvictPod env st x node "NodeTaint").state.dryRun = false := by
          rw [hcommon.1, hdry]
        have hcap1' : (EvictPod env st x node "NodeTaint").state.maxPodsToEvictPerNode = none := by
          rw [hcommon.2.1, hcap1]
        have hcap2' :
            (EvictPod env st x node "NodeTaint").state.maxPodsToEvictPerNamespace = none := by
          rw [hcommon.2.2.1, hcap2]
        simp only [List.cons_append, processPodsOnNode, htol', Bool.false_eq_true, if_false,
          hevict.1]
        exact ih (EvictPod env st x node "NodeTaint").state hdry' hcap1' hcap2'
          fun p hp => hxs p (List.mem_cons_of_mem x hp)
  · have hsucc : ListAllPodsOnANode env st node.Name filter
        = Except.ok (listedPodsFor st.store node.Name filter) := by
      simp [ListAllPodsOnANode, hlistok]
    simp only [processNodes, hsucc]

/-- Witness for C6: eviction of p1 fails; the candidate pod py behind it on
n1 is abandoned, and the node loop still proceeds past n1. -/
theorem taint_strategy_abandons_node_on_eviction_error_witness :
    processPodsOnNode fixEnvEvictP1Fails fixNode1 (initialTickState fixCfgReal fixEnvEvictP1Fails)
        ([] ++ fixPod1 :: [fixPodY]) =
      processPodsOnNode fixEnvEvictP1Fails fixNode1
        (initialTickState fixCfgReal fixEnvEvictP1Fails) ([] ++ [fixPod1]) ∧
    processNodes fixEnvEvictP1Fails (fun _ => true)
        (initialTickState fixCfgReal fixEnvEvictP1Fails) (fixNode1 :: [fixNode2]) =
      processNodes fixEnvEvictP1Fails (fun _ => true)
        (processPodsOnNode fixEnvEvictP1Fails fixNode1
          (observeListed (initialTickState fixCfgReal fixEnvEvictP1Fails) fixNode1.Name
            fun _ => true)
          (listedPodsFor (initialTickState fixCfgReal fixEnvEvictP1Fails).store fixNode1.Name
            fun _ => true))
        [fixNode2] :=
  taint_strategy_abandons_node_on_eviction_error fixEnvEvictP1Fails fixNode1
    (initialTickState fixCfgReal fixEnvEvictP1Fails) [] [fixPodY] fixPod1 (fun _ => true)
    [fixNode2] rfl rfl rfl (by intro p hp; cases hp) (by decide) (by decide) rfl

/-- C8: parameters with both namespace lists non-empty, or with both a
numeric priority threshold and a priority class name, fail validation with
an error, and the strategy's Run leaves the tick state untouched — no
eviction, no call, nothing. -/
theorem invalid_taint_params_not_run
    (env : TickEnv) (cfg : DeschedulerStrategy) (nodes : List Node) (st : TickState)
    (params : StrategyParameters)
    (hp : cfg.Params = some params)
    (hbad : (∃ ns, params.Namespaces = some ns ∧
              ns.Include.isEmpty = false ∧ ns.Exclude.isEmpty = false) ∨
            (params.ThresholdPriority.isSome = true ∧
              (params.ThresholdPriorityClassName != "") = true)) :
    (∃ msg, validateRemovePodsViolatingNodeTaintsParams cfg.Params = Except.error msg) ∧
    RemovePodsViolatingNodeTaintsRun env cfg nodes st = st := by
  have hval : ∃ msg,
      validateRemovePodsViolatingNodeTaintsParams (some params) = Except.error msg := by
    rcases hbad with ⟨ns, hns, hi, he⟩ | ⟨ht, hc⟩
    · exact ⟨"only one of Include/Exclude namespaces can be set",
        by simp [validateRemovePodsViolatingNodeTaintsParams, hns, hi, he]⟩
    · by_cases hcond : (match params.Namespaces with
        | some ns => !ns.Include.isEmpty && !ns.Exclude.isEmpty
        | none => false) = true
      · exact ⟨"only one of Include/Exclude namespaces can be set",
          by simp [validateRemovePodsViolatingNodeTaintsParams, hcond]⟩
      · exact ⟨"only one of thresholdPriority and thresholdPriorityClassName can be set",
          by simp [validateRemovePodsViolatingNodeTaintsParams, hcond, ht, hc]⟩
  obtain ⟨msg, hmsg⟩ := hval
  refine ⟨⟨msg, by rw [hp]; exact hmsg⟩, ?_⟩
  unfold RemovePodsViolatingNodeTaintsRun
  rw [hp, hmsg]

/-- Witness for C8: include ["a"] and exclude ["b"] both set. -/
theorem invalid_taint_params_not_run_witness :
    (∃ msg, validateRemovePodsViolatingNodeTaintsParams
      (some fixBadParams : Option StrategyParameters) = Except.error msg) ∧
    RemovePodsViolatingNodeTaintsRun fixEnv { Enabled := true, Params := some fixBadParams }
      [fixNode1, fixNode2] (initialTickState fixCfgReal fixEnv) =
      initialTickState fixCfgReal fixEnv :=
  invalid_taint_params_not_run fixEnv { Enabled := true, Params := some fixBadParams }
    [fixNode1, fixNode2] (initialTickState fixCfgReal fixEnv) fixBadParams rfl
    (Or.inl ⟨{ Include := ["a"], Exclude := ["b"] }, rfl, rfl, rfl⟩)

/-- C10: nil strategy parameters pass validation, and the strategy's Run
under nil parameters is identical to its Run under the explicit defaults —
empty namespace include and exclude sets, no label selector, no numeric
threshold and no class name for the priority resolution, and node fit
disabled. -/
theorem nil_taint_params_accepted_with_defaults :
    validateRemovePodsViolatingNodeTaintsParams none = Except.ok () ∧
    ∀ (env : TickEnv) (nodes : List Node) (st : TickState),
      RemovePodsViolatingNodeTaintsRun env { Enabled := true, Params := none } nodes st =
      RemovePodsViolatingNodeTaintsRun env
        { Enabled := true, Params := some defaultTaintParams } nodes st := by
  exact ⟨rfl, fun env nodes st => rfl⟩

theorem storeHasKey_of_mem (s : List Pod) (p : Pod) (hp : p ∈ s) :
    storeHasKey s p.Namespace p.Name = true := by
  simp only [storeHasKey, List.any_eq_true]
  exact ⟨p, hp, by simp⟩

theorem storeHasKey_deleteFromStore_le (s : List Pod) (a b x y : String)
    (h : storeHasKey (deleteFromStore s a b) x y = true) :
    storeHasKey s x y = true := by
  simp only [storeHasKey, deleteFromStore, List.any_eq_true, List.mem_filter] at h ⊢
  obtain ⟨q, ⟨hq, _⟩, hkey⟩ := h
  exact ⟨q, hq, hkey⟩

theorem storeHasKey_deleteFromStore_self (s : List Pod) (a b : String) :
    storeHasKey (deleteFromStore s a b) a b = false := by
  simp only [storeHasKey, deleteFromStore]
  rw [List.any_eq_false]
  intro q hq
  rcases List.mem_filter.mp hq with ⟨_, hkeep⟩
  cases hvb : (q.Namespace == a && q.Name == b) with
  | false => simp [hvb]
  | true => rw [hvb] at hkeep; simp at hkeep

theorem storeHasKey_false_deleteFromStore (s : List Pod) (a b x y : String)
    (h : storeHasKey s x y = false) :
    storeHasKey (deleteFromStore s a b) x y = false := by
  cases hd : storeHasKey (deleteFromStore s a b) x y
  · rfl
  · exact absurd (storeHasKey_deleteFromStore_le s a b x y hd) (by simp [h])

theorem dryEvolves_refl (st : TickState) : dryEvolves st st :=
  ⟨rfl, rfl, fun _ _ h => h, ⟨[], by simp, by simp⟩, ⟨[], by simp⟩,
    fun _ hr hc => hc hr⟩

theorem dryEvolves_trans {a b c : TickState} (h1 : dryEvolves a b) (h2 : dryEvolves b c) :
    dryEvolves a c := by
  obtain ⟨d1, o1, s1, ⟨ob1, hob1, hob1m⟩, ⟨e1, he1⟩, inv1⟩ := h1
  obtain ⟨d2, o2, s2, ⟨ob2, hob2, hob2m⟩, ⟨e2, he2⟩, inv2⟩ := h2
  refine ⟨d2.trans d1, o2.trans o1, fun x y h => s1 x y (s2 x y h),
    ⟨ob1 ++ ob2, by rw [hob2, hob1, List.append_assoc], ?_⟩,
    ⟨e1 ++ e2, by rw [he2, he1, List.append_assoc]⟩, ?_⟩
  · intro x hx
    rcases List.mem_append.mp hx with h | h
    · exact hob1m x h
    · exact s1 x.1 x.2 (hob2m x h)
  · intro r hr hc
    refine inv2 r hr fun hrb => inv1 r hrb fun hra => hc hra

theorem dryEvolves_attemptedBump (st : TickState) (pod : Pod) (node : Node)
    (reason : String) : dryEvolves st (attemptedBump st pod node reason) :=
  ⟨rfl, rfl, fun _ _ h => h, ⟨[], by simp [attemptedBump], by simp⟩,
    ⟨[], by simp [attemptedBump]⟩, fun _ hr hc => hc hr⟩

theorem EvictPod_dryEvolves (env : TickEnv) (st : TickState) (pod : Pod) (node : Node)
    (reason : String) (hdry : st.dryRun = true) :
    dryEvolves st (EvictPod env st pod node reason).state := by
  by_cases h1 : capReached st.maxPodsToEvictPerNode (lookupCount st.nodepodCount node.Name) = true
  · have hst : (EvictPod env st pod node reason).state = attemptedBump st pod node reason := by
      unfold EvictPod; rw [if_pos h1]
    rw [hst]; exact dryEvolves_attemptedBump st pod node reason
  · by_cases h2 : capReached st.maxPodsToEvictPerNamespace
        (lookupCount st.namespacePodCount pod.Namespace) = true
    · have hst : (EvictPod env st pod node reason).state = attemptedBump st pod node reason := by
        unfold EvictPod; rw [if_neg h1, if_pos h2]
      rw [hst]; exact dryEvolves_attemptedBump st pod node reason
    · by_cases h3 : storeHasKey st.store pod.Namespace pod.Name = true
      · have hst : (EvictPod env st pod node reason).state =
            recordEviction
              (attemptedBump { st with store := deleteFromStore st.store pod.Namespace pod.Name }
                pod node reason) pod node reason := by
          unfold EvictPod; rw [if_neg h1, if_neg h2, if_pos hdry, if_pos h3]
        rw [hst]
        refine ⟨by simp [recordEviction, attemptedBump],
          by simp [recordEviction, attemptedBump],
          fun x y h => storeHasKey_deleteFromStore_le st.store pod.Namespace pod.Name x y
            (by simpa [recordEviction, attemptedBump] using h),
          ⟨[], by simp [recordEviction, attemptedBump], by simp⟩,
          ⟨[mkEvictionRecord pod node reason], by simp [recordEviction, attemptedBump]⟩, ?_⟩
        intro r hr hc
        simp only [recordEviction, attemptedBump, List.mem_append] at hr
        show storeHasKey (deleteFromStore st.store pod.Namespace pod.Name)
          r.podNamespace r.podName = false
        rcases hr with hr | hr
        · exact storeHasKey_false_deleteFromStore st.store pod.Namespace pod.Name
            r.podNamespace r.podName (hc hr)
        · have : r = mkEvictionRecord pod node reason := by simpa using hr
          subst this
          exact storeHasKey_deleteFromStore_self st.store pod.Namespace pod.Name
      · have hst : (EvictPod env st pod node reason).state = attemptedBump st pod node reason := by
          unfold EvictPod; rw [if_neg h1, if_neg h2, if_pos hdry, if_neg h3]
        rw [hst]; exact dryEvolves_attemptedBump st pod node reason

theorem observeListed_dryEvolves (st : TickState) (nodeName : String)
    (filter : Pod → Bool) : dryEvolves st (observeListed st nodeName filter) := by
  refine ⟨rfl, rfl, fun _ _ h => h,
    ⟨(listedPodsFor st.store nodeName filter).map (fun p => (p.Namespace, p.Name)),
      by simp [observeListed], ?_⟩,
    ⟨[], by simp [observeListed]⟩, fun _ hr hc => hc hr⟩
  intro x hx
  obtain ⟨p, hp, hpx⟩ := List.mem_map.mp hx
  have hmem : p ∈ st.store := by
    simp only [listedPodsFor, List.mem_filter] at hp
    exact hp.1.1
  rw [← hpx]
  exact storeHasKey_of_mem st.store p hmem

theorem processPodsOnNode_dryEvolves (env : TickEnv) (node : Node) (pods : List Pod)
    (st : TickState) (hdry : st.dryRun = true) :
    dryEvolves st (processPodsOnNode env node st pods) := by
  induction pods generalizing st with
  | nil => simpa [processPodsOnNode] using dryEvolves_refl st
  | cons pod rest ih =>
    by_cases htol :
        TolerationsTolerateTaintsWithFilter pod.Tolerations node.Taints noScheduleTaintFilter
          = true
    · simpa [processPodsOnNode, htol] using ih st hdry
    · have htol' :
          TolerationsTolerateTaintsWithFilter pod.Tolerations node.Taints noScheduleTaintFilter
            = false := by
        revert htol; cases TolerationsTolerateTaintsWithFilter pod.Tolerations node.Taints
          noScheduleTaintFilter <;> simp
      have hstep := EvictPod_dryEvolves env st pod node "NodeTaint" hdry
      have hdry' : (EvictPod env st pod node "NodeTaint").state.dryRun = true := by
        rw [hstep.1, hdry]
      by_cases herr : (EvictPod env st pod node "NodeTaint").isErr = true
      · simpa [processPodsOnNode, htol', herr] using hstep
      · have herr' : (EvictPod env st pod node "NodeTaint").isErr = false := by
          revert herr; cases (EvictPod env st pod node "NodeTaint").isErr <;> simp
        simp only [processPodsOnNode, htol', Bool.false_eq_true, if_false, herr']
        exact dryEvolves_trans hstep (ih _ hdry')

theorem processNodes_dryEvolves (env : TickEnv) (filter : Pod → Bool) (nodes : List Node)
    (st : TickState) (hdry : st.dryRun = true) :
    dryEvolves st (processNodes env filter st nodes) := by
  induction nodes generalizing st with
  | nil => simpa [processNodes] using dryEvolves_refl st
  | cons node rest ih =>
    cases hl : ListAllPodsOnANode env st node.Name filter with
    | error e => simpa [processNodes, hl] using dryEvolves_refl st
    | ok pods =>
      have hobs := observeListed_dryEvolves st node.Name filter
      have hdry1 : (observeListed st node.Name filter).dryRun = true := by
        rw [hobs.1, hdry]
      have hpods := processPodsOnNode_dryEvolves env node pods
        (observeListed st node.Name filter) hdry1
      have hdry2 : (processPodsOnNode env node (observeListed st node.Name filter)
          pods).dryRun = true := by
        rw [hpods.1, hdry1]
      have hrest := ih (processPodsOnNode env node (observeListed st node.Name filter) pods)
        hdry2
      simp only [processNodes, hl]
      exact dryEvolves_trans hobs (dryEvolves_trans hpods hrest)

theorem RemovePodsViolatingNodeTaintsRun_dryEvolves (env : TickEnv)
    (cfg : DeschedulerStrategy) (nodes : List Node) (st : TickState)
    (hdry : st.dryRun = true) :
    dryEvolves st (RemovePodsViolatingNodeTaintsRun env cfg nodes st) := by
  unfold RemovePodsViolatingNodeTaintsRun
  cases validateRemovePodsViolatingNodeTaintsParams cfg.Params with
  | error e => exact dryEvolves_refl st
  | ok u =>
    cases GetPriorityFromStrategyParams env.resolvePriorityClass cfg.Params with
    | error e => exact dryEvolves_refl st
    | ok thr => exact processNodes_dryEvolves env (podFilterFor env cfg thr) nodes st hdry

theorem runStrategyList_cons (env : TickEnv) (nodes : List Node) (st : TickState)
    (nm : String) (cfg : DeschedulerStrategy) (rest : List (String × DeschedulerStrategy)) :
    runStrategyList env nodes st ((nm, cfg) :: rest) =
      if cfg.Enabled then
        runStrategyList env nodes (RemovePodsViolatingNodeTaintsRun env cfg nodes st) rest
      else runStrategyList env nodes st rest := rfl

theorem runStrategyList_dryEvolves (env : TickEnv) (nodes : List Node)
    (strats : List (String × DeschedulerStrategy)) (st : TickState)
    (hdry : st.dryRun = true) :
    dryEvolves st (runStrategyList env nodes st strats) := by
  induction strats generalizing st with
  | nil => simpa [runStrategyList] using dryEvolves_refl st
  | cons s rest ih =>
    obtain ⟨nm, cfg⟩ := s
    by_cases hen : cfg.Enabled = true
    · have hstep := RemovePodsViolatingNodeTaintsRun_dryEvolves env cfg nodes st hdry
      have hdry' : (RemovePodsViolatingNodeTaintsRun env cfg nodes st).dryRun = true := by
        rw [hstep.1, hdry]
      rw [runStrategyList_cons, if_pos hen]
      exact dryEvolves_trans hstep (ih _ hdry')
    · rw [runStrategyList_cons, if_neg hen]
      exact ih st hdry

theorem runStrategyList_append (env : TickEnv) (nodes : List Node)
    (l1 l2 : List (String × DeschedulerStrategy)) (st : TickState) :
    runStrategyList env nodes st (l1 ++ l2) =
      runStrategyList env nodes (runStrategyList env nodes st l1) l2 := by
  induction l1 generalizing st with
  | nil => simp [runStrategyList]
  | cons s rest ih =>
    obtain ⟨nm, cfg⟩ := s
    by_cases hen : cfg.Enabled = true
    · rw [List.cons_append, runStrategyList_cons, runStrategyList_cons, if_pos hen, if_pos hen,
        ih]
    · rw [List.cons_append, runStrategyList_cons, runStrategyList_cons, if_neg hen, if_neg hen,
        ih]

theorem runTick_ok (cfg : LoopConfig) (env : TickEnv)
    (strats : List (String × DeschedulerStrategy)) (nodes : List Node)
    (hready : env.readyNodes = Except.ok nodes)
    (hlen : 1 < nodes.length)
    (hns : (cfg.DryRun && env.dryRunSetupFails) = false) :
    runTick cfg env strats =
      { evicted := (runStrategyList env nodes (initialTickState cfg env) strats).evicted
        attempted := (runStrategyList env nodes (initialTickState cfg env) strats).attempted
        apiCalls := (runStrategyList env nodes (initialTickState cfg env) strats).apiCalls
        totalEvicted := (runStrategyList env nodes (initialTickState cfg env) strats).totalEvicted
        stopRequested := cfg.DeschedulingIntervalZero } := by
  simp only [runTick, hready]
  rw [if_neg (by omega), if_neg (by simp [hns])]

/-- C5: in a dry-run tick that reaches its strategies, no eviction call is
issued against the real cluster (`apiCalls` stays empty, the real pod set is
untouched), and for any split of the strategy list into an earlier part
`ss1` and a later part `ss2`: a pod evicted during `ss1` is gone from the
snapshot store, and no pod-listing observation made during `ss2` returns its
key — later strategies no longer see it. -/
theorem dry_run_isolates_real_cluster
    (cfg : LoopConfig) (env : TickEnv) (ss1 ss2 : List (String × DeschedulerStrategy))
    (nodes : List Node) (r : EvictionRecord) (ob : String × String)
    (hdry : cfg.DryRun = true)
    (hready : env.readyNodes = Except.ok nodes)
    (hlen : 1 < nodes.length)
    (hsetup : env.dryRunSetupFails = false)
    (hr : r ∈ (runStrategyList env nodes (initialTickState cfg env) ss1).evicted)
    (hob : ob ∈ (runStrategyList env nodes
        (runStrategyList env nodes (initialTickState cfg env) ss1) ss2).observed.drop
      (runStrategyList env nodes (initialTickState cfg env) ss1).observed.length) :
    (runTick cfg env (ss1 ++ ss2)).apiCalls = [] ∧
    storeHasKey (runStrategyList env nodes (initialTickState cfg env) ss1).store
      r.podNamespace r.podName = false ∧
    ¬(ob.1 = r.podNamespace ∧ ob.2 = r.podName) := by
  have hdry0 : (initialTickState cfg env).dryRun = true := by simp [initialTickState, hdry]
  have h1 := runStrategyList_dryEvolves env nodes ss1 (initialTickState cfg env) hdry0
  have hdry1 : (runStrategyList env nodes (initialTickState cfg env) ss1).dryRun = true := by
    rw [h1.1, hdry0]
  have h2 := runStrategyList_dryEvolves env nodes ss2
    (runStrategyList env nodes (initialTickState cfg env) ss1) hdry1
  have habsent : storeHasKey (runStrategyList env nodes (initialTickState cfg env) ss1).store
      r.podNamespace r.podName = false := by
    refine h1.2.2.2.2.2 r hr fun hmem => absurd hmem ?_
    simp [initialTickState]
  refine ⟨?_, habsent, ?_⟩
  · rw [runTick_ok cfg env (ss1 ++ ss2) nodes hready hlen (by rw [hsetup, Bool.and_false])]
    show (runStrategyList env nodes (initialTickState cfg env) (ss1 ++ ss2)).apiCalls = []
    rw [runStrategyList_append, h2.2.1, h1.2.1]
    simp [initialTickState]
  · obtain ⟨d, hobs, hd⟩ := h2.2.2.2.1
    rw [hobs, List.drop_left] at hob
    have hkey := hd ob hob
    rintro ⟨hn, hm⟩
    rw [hn, hm] at hkey
    exact absurd hkey (by simp [habsent])

/-- Witness for C5: a dry-run tick with two enabled strategies; p1 is
evicted by the first, vanishes from the snapshot store, and the second
strategy's listings return p2 but never p1; no real eviction call is made. -/
theorem dry_run_isolates_real_cluster_witness :
    (runTick fixCfgDry fixEnv ([fixStrategy] ++ [fixStrategy])).apiCalls = [] ∧
    storeHasKey (runStrategyList fixEnv [fixNode1, fixNode2]
        (initialTickState fixCfgDry fixEnv) [fixStrategy]).store "d" "p1" = false ∧
    ¬((("d", "p2") : String × String).1 = "d" ∧ (("d", "p2") : String × String).2 = "p1") := by
  have h := dry_run_isolates_real_cluster fixCfgDry fixEnv [fixStrategy] [fixStrategy]
    [fixNode1, fixNode2]
    { podNamespace := "d", podName := "p1", nodeName := "n1", reason := "NodeTaint" }
    ("d", "p2") rfl rfl (by decide) rfl (by decide) (by decide)
  exact h

/-- C2: a tick whose ready-node listing fails, or returns at most one ready
node, makes no eviction call at all (no record, no attempt, no API call),
closes the stop channel so that no further tick runs, and — provided
initialization succeeded — the surrounding run function still returns ok
(Go nil), not an error. -/
theorem unsafe_cluster_stops_schedule_cleanly
    (cfg : LoopConfig) (strats : List (String × DeschedulerStrategy))
    (envs : Nat → TickEnv) (cancel : Nat → Bool) (i fuel fuel2 : Nat)
    (sl : List (String × DeschedulerStrategy))
    (hinit : initializeStratagies sl = Except.ok strats)
    (hcancel : cancel i = false)
    (hbad : (envs i).readyNodes = Except.error () ∨
      ∃ ns, (envs i).readyNodes = Except.ok ns ∧ ns.length ≤ 1) :
    (runTick cfg (envs i) strats).evicted = [] ∧
    (runTick cfg (envs i) strats).attempted = [] ∧
    (runTick cfg (envs i) strats).apiCalls = [] ∧
    (runTick cfg (envs i) strats).stopRequested = true ∧
    runTickLoop cfg strats envs cancel i (fuel + 1) = [runTick cfg (envs i) strats] ∧
    ∃ results, RunDeschedulerStrategies true sl cfg envs cancel fuel2 = Except.ok results := by
  have htick : runTick cfg (envs i) strats = emptyTickResult true := by
    rcases hbad with h | ⟨ns, h, hlen⟩
    · simp [runTick, h]
    · simp [runTick, h, if_pos hlen]
  refine ⟨by rw [htick]; rfl, by rw [htick]; rfl, by rw [htick]; rfl, by rw [htick]; rfl,
    ?_, ?_⟩
  · simp only [runTickLoop, hcancel, Bool.false_eq_true, if_false]
    rw [if_pos (by rw [htick]; rfl)]
  · exact ⟨runTickLoop cfg strats envs cancel 0 fuel2,
      by simp [RunDeschedulerStrategies, hinit]⟩

/-- Witness for C2: the ready-node listing fails at tick 0. -/
theorem unsafe_cluster_stops_schedule_cleanly_witness :
    (runTick fixCfgReal fixEnvNodesFail fixFullStrategyList).evicted = [] ∧
    (runTick fixCfgReal fixEnvNodesFail fixFullStrategyList).attempted = [] ∧
    (runTick fixCfgReal fixEnvNodesFail fixFullStrategyList).apiCalls = [] ∧
    (runTick fixCfgReal fixEnvNodesFail fixFullStrategyList).stopRequested = true ∧
    runTickLoop fixCfgReal fixFullStrategyList (fun _ => fixEnvNodesFail) (fun _ => false) 0
      (4 + 1) = [runTick fixCfgReal fixEnvNodesFail fixFullStrategyList] ∧
    ∃ results, RunDeschedulerStrategies true fixFullStrategyList fixCfgReal
      (fun _ => fixEnvNodesFail) (fun _ => false) 7 = Except.ok results :=
  unsafe_cluster_stops_schedule_cleanly fixCfgReal fixFullStrategyList
    (fun _ => fixEnvNodesFail) (fun _ => false) 0 4 7 fixFullStrategyList rfl rfl
    (Or.inl rfl)

/-- C7: the tick at index j of the loop equals `runTick` applied to that
tick's own environment with a freshly-built evictor state (zeroed counters)
and, in dry-run mode, a freshly seeded snapshot: no eviction-count state or
simulated deletion of any earlier tick is referenced. -/
theorem each_tick_runs_fresh
    (cfg : LoopConfig) (strats : List (String × DeschedulerStrategy))
    (envs : Nat → TickEnv) (cancel : Nat → Bool) (i fuel j : Nat) (r : TickResult)
    (h : (runTickLoop cfg strats envs cancel i fuel).get? j = some r) :
    r = runTick cfg (envs (i + j)) strats := by
  induction fuel generalizing i j with
  | zero => simp [runTickLoop] at h
  | succ fuel ih =>
    simp only [runTickLoop] at h
    by_cases hc : cancel i = true
    · rw [if_pos hc] at h; simp at h
    · rw [if_neg hc] at h
      by_cases hs : (runTick cfg (envs i) strats).stopRequested = true
      · rw [if_pos hs] at h
        cases j with
        | zero =>
          simp only [List.get?] at h
          injection h with h
          rw [← h, Nat.add_zero]
        | succ j => simp [List.get?] at h
      · rw [if_neg hs] at h
        cases j with
        | zero =>
          simp only [List.get?] at h
          injection h with h
          rw [← h, Nat.add_zero]
        | succ j =>
          simp only [List.get?] at h
          have h2 := ih (i + 1) j h
          have harith : i + 1 + j = i + (j + 1) := by omega
          rw [harith] at h2
          exact h2

/-- Witness for C7: in a three-tick loop over a constant environment, tick 1
equals a fresh `runTick` of that environment. -/
theorem each_tick_runs_fresh_witness :
    runTick fixCfgReal fixEnv [fixStrategy] =
      runTick fixCfgReal ((fun _ => fixEnv) (0 + 1)) [fixStrategy] :=
  each_tick_runs_fresh fixCfgReal [fixStrategy] (fun _ => fixEnv) (fun _ => false) 0 3 1
    (runTick fixCfgReal fixEnv [fixStrategy]) (by decide)

/-- Counterexample to C1 as stated: a policy whose strategy configuration
references only the unknown strategy name "Foo" aborts the whole run — the
registered strategy constructors fail to find their names at initialization
and `RunDeschedulerStrategies` returns an error before any tick runs. -/
theorem unknown_strategy_aborts_run_cex :
    registeredStrategyNames.contains "Foo" = false ∧
    RunDeschedulerStrategies true fixUnknownOnlyList fixCfgReal (fun _ => fixEnv)
      (fun _ => false) 1 = Except.error "" :=
  ⟨by decide, rfl⟩

theorem initStrategiesFrom_ok (sl : List (String × DeschedulerStrategy))
    (names : List String)
    (hall : ∀ n ∈ names, (sl.lookup n).isSome = true) :
    ∃ out, initStrategiesFrom sl names = Except.ok out := by
  induction names with
  | nil => exact ⟨[], rfl⟩
  | cons n rest ih =>
    have hn := hall n (List.mem_cons_self n rest)
    obtain ⟨cfg, hcfg⟩ := Option.isSome_iff_exists.mp hn
    obtain ⟨out, hout⟩ := ih fun m hm => hall m (List.mem_cons_of_mem n hm)
    exact ⟨(n, cfg) :: out, by simp [initStrategiesFrom, hcfg, hout]⟩

theorem initStrategiesFrom_missing (sl : List (String × DeschedulerStrategy))
    (names : List String) (hmiss : ∃ n ∈ names, sl.lookup n = none) :
    initStrategiesFrom sl names = Except.error "" := by
  induction names with
  | nil =>
    obtain ⟨n, hn, _⟩ := hmiss
    cases hn
  | cons n0 rest ih =>
    obtain ⟨n, hn, hnone⟩ := hmiss
    rcases List.mem_cons.mp hn with rfl | hn'
    · simp [initStrategiesFrom, hnone]
    · cases hl : sl.lookup n0 with
      | none => simp [initStrategiesFrom, hl]
      | some cfg =>
        have hrest := ih ⟨n, hn', hnone⟩
        simp [initStrategiesFrom, hl, hrest]

/-- C1 amended: a disabled strategy entry in the constructed list is logged
and skipped without affecting the tick — the strategy loop over a list
containing it equals the loop with the entry removed, so every other
enabled strategy still runs — and initialization succeeds exactly when the
policy's map contains every registered strategy name: a map lacking a
registered name (in particular one referencing only unknown names) aborts
the run at initialization with an error, before any tick. -/
theorem disabled_strategy_skipped_not_fatal
    (env : TickEnv) (nodes : List Node) (st : TickState)
    (pre post : List (String × DeschedulerStrategy)) (nm : String)
    (cfg : DeschedulerStrategy) (sl1 sl2 : List (String × DeschedulerStrategy))
    (hdis : cfg.Enabled = false)
    (hall : ∀ n ∈ registeredStrategyNames, (sl1.lookup n).isSome = true)
    (hmiss : ∃ n ∈ registeredStrategyNames, sl2.lookup n = none) :
    runStrategyList env nodes st (pre ++ (nm, cfg) :: post) =
      runStrategyList env nodes st (pre ++ post) ∧
    (∃ strats, initializeStratagies sl1 = Except.ok strats) ∧
    initializeStratagies sl2 = Except.error "" := by
  refine ⟨?_, initStrategiesFrom_ok sl1 registeredStrategyNames hall,
    initStrategiesFrom_missing sl2 registeredStrategyNames hmiss⟩
  induction pre generalizing st with
  | nil =>
    rw [List.nil_append, List.nil_append, runStrategyList_cons,
      if_neg (by simp [hdis])]
  | cons p pre ih =>
    obtain ⟨n2, c2⟩ := p
    by_cases hen : c2.Enabled = true
    · rw [List.cons_append, List.cons_append, runStrategyList_cons, runStrategyList_cons,
        if_pos hen, if_pos hen]
      exact ih _
    · rw [List.cons_append, List.cons_append, runStrategyList_cons, runStrategyList_cons,
        if_neg hen, if_neg hen]
      exact ih _

/-- Witness for the amended C1: a disabled RemoveDuplicates entry between
two enabled taint strategies changes nothing; the full map initializes; the
unknown-only map errors. -/
theorem disabled_strategy_skipped_not_fatal_witness :
    runStrategyList fixEnv [fixNode1, fixNode2] (initialTickState fixCfgReal fixEnv)
        ([fixStrategy] ++ fixDisabledStrategy :: [fixStrategy]) =
      runStrategyList fixEnv [fixNode1, fixNode2] (initialTickState fixCfgReal fixEnv)
        ([fixStrategy] ++ [fixStrategy]) ∧
    (∃ strats, initializeStratagies fixFullStrategyList = Except.ok strats) ∧
    initializeStratagies fixUnknownOnlyList = Except.error "" :=
  disabled_strategy_skipped_not_fatal fixEnv [fixNode1, fixNode2]
    (initialTickState fixCfgReal fixEnv) [fixStrategy] [fixStrategy] "RemoveDuplicates"
    { Enabled := false, Params := none } fixFullStrategyList fixUnknownOnlyList rfl
    (by decide) ⟨"RemoveDuplicates", by decide, rfl⟩

/-- Counterexample to C4 as stated: two ready nodes, the pod listing for n2
fails, interval non-zero — the tick does not close the stop channel and the
loop runs a second tick, so the schedule does not stop; the tick even
records an eviction on n1 made before the failure. -/
theorem pod_list_failure_does_not_stop_schedule_cex :
    fixEnvListFailN2.listPodsFails "n2" = true ∧
    fixEnvListFailN2.readyNodes = Except.ok [fixNode1, fixNode2] ∧
    (runTick fixCfgReal fixEnvListFailN2 [fixStrategy]).stopRequested = false ∧
    (runTick fixCfgReal fixEnvListFailN2 [fixStrategy]).evicted =
      [{ podNamespace := "d", podName := "p1", nodeName := "n1", reason := "NodeTaint" }] ∧
    (runTickLoop fixCfgReal [fixStrategy] (fun _ => fixEnvListFailN2) (fun _ => false)
      0 2).length = 2 :=
  ⟨rfl, rfl, rfl, by decide, by decide⟩

/-- C4 amended: a failing pod listing for a node makes the strategy's run
return immediately — the state is exactly what it was when the failure was
hit, so that strategy processes no further node and performs no further
eviction — but the tick is not aborted (later strategies still run on the
same state) and the stop channel is closed only per the interval rule: the
schedule is not stopped by the failure, and the failed listing is simply not
retried. -/
theorem pod_list_failure_aborts_strategy_only
    (env : TickEnv) (filter : Pod → Bool) (st : TickState) (node : Node)
    (rest nodes : List Node) (cfg : LoopConfig)
    (strats : List (String × DeschedulerStrategy))
    (hfail : env.listPodsFails node.Name = true)
    (hready : env.readyNodes = Except.ok nodes)
    (hlen : 1 < nodes.length)
    (hnodry : (cfg.DryRun && env.dryRunSetupFails) = false) :
    processNodes env filter st (node :: rest) = st ∧
    (runTick cfg env strats).stopRequested = cfg.DeschedulingIntervalZero := by
  constructor
  · have herr : ListAllPodsOnANode env st node.Name filter = Except.error () := by
      simp [ListAllPodsOnANode, hfail]
    simp [processNodes, herr]
  · rw [runTick_ok cfg env strats nodes hready hlen hnodry]

/-- Witness for the amended C4: the failing n2 listing ends the strategy
with the state as-is, and the tick's stop decision is the interval rule. -/
theorem pod_list_failure_aborts_strategy_only_witness :
    processNodes fixEnvListFailN2 (fun _ => true)
        (initialTickState fixCfgReal fixEnvListFailN2) (fixNode2 :: [fixNode1]) =
      initialTickState fixCfgReal fixEnvListFailN2 ∧
    (runTick fixCfgReal fixEnvListFailN2 [fixStrategy]).stopRequested =
      fixCfgReal.DeschedulingIntervalZero :=
  pod_list_failure_aborts_strategy_only fixEnvListFailN2 (fun _ => true)
    (initialTickState fixCfgReal fixEnvListFailN2) fixNode2 [fixNode1]
    [fixNode1, fixNode2] fixCfgReal [fixStrategy] rfl rfl (by decide) rfl

/-- Counterexample to C9 as stated: the configured interval is zero, yet the
schedule does not stop after exactly one tick — a dry-run tick whose
snapshot setup fails returns early, before the interval-zero close of the
stop channel, so a second tick runs. -/
theorem interval_zero_two_ticks_cex :
    fixCfgDryOnce.DeschedulingIntervalZero = true ∧
    RunDeschedulerStrategies true fixFullStrategyList fixCfgDryOnce
      (fun _ => fixEnvDrySetupFails) (fun _ => false) 2 =
      Except.ok [emptyTickResult false, emptyTickResult false] :=
  ⟨rfl, rfl⟩

/-- C9 amended: with a zero interval, a tick that is not on the dry-run
setup-failure early-return path closes the stop channel, so the schedule
stops after exactly that one tick; with a non-zero interval, a tick that did
not close the stop channel is followed by at least one further tick when no
cancellation arrives. -/
theorem interval_zero_single_tick_else_continue
    (cfg1 cfg2 : LoopConfig) (strats1 strats2 : List (String × DeschedulerStrategy))
    (envs1 envs2 : Nat → TickEnv) (cancel1 cancel2 : Nat → Bool)
    (i1 i2 fuel1 fuel2 : Nat)
    (hz1 : cfg1.DeschedulingIntervalZero = true)
    (hc1 : cancel1 i1 = false)
    (hpath : drySetupFailurePath cfg1 (envs1 i1) = false)
    (hz2 : cfg2.DeschedulingIntervalZero = false)
    (hc2 : cancel2 i2 = false)
    (hc2s : cancel2 (i2 + 1) = false)
    (hstop : (runTick cfg2 (envs2 i2) strats2).stopRequested = false) :
    runTickLoop cfg1 strats1 envs1 cancel1 i1 (fuel1 + 1) =
      [runTick cfg1 (envs1 i1) strats1] ∧
    2 ≤ (runTickLoop cfg2 strats2 envs2 cancel2 i2 (fuel2 + 2)).length := by
  constructor
  · have hstop1 : (runTick cfg1 (envs1 i1) strats1).stopRequested = true := by
      cases hr : (envs1 i1).readyNodes with
      | error e => simp [runTick, hr, emptyTickResult]
      | ok nodes =>
        by_cases hlen : nodes.length ≤ 1
        · simp [runTick, hr, hlen, emptyTickResult]
        · have hdsf : (cfg1.DryRun && (envs1 i1).dryRunSetupFails) = false := by
            cases hd : cfg1.DryRun
            · simp
            · cases hf : (envs1 i1).dryRunSetupFails
              · simp
              · exfalso
                have := hpath
                simp [drySetupFailurePath, hr, hd, hf, hlen] at this
          rw [runTick_ok cfg1 (envs1 i1) strats1 nodes hr (by omega) hdsf]
          exact hz1
    simp only [runTickLoop, hc1, Bool.false_eq_true, if_false]
    rw [if_pos hstop1]
  · simp only [runTickLoop, hc2, hc2s, Bool.false_eq_true, if_false]
    rw [if_neg (by simp [hstop])]
    simp only [List.length_cons]
    by_cases hs2 : (runTick cfg2 (envs2 (i2 + 1)) strats2).stopRequested = true
    · rw [if_pos hs2]
      simp
    · rw [if_neg hs2]
      simp only [List.length_cons]
      omega

/-- Witness for the amended C9: a zero-interval run over a healthy real-mode
environment ticks exactly once; a non-zero-interval run ticks again. -/
theorem interval_zero_single_tick_else_continue_witness :
    runTickLoop fixCfgRealOnce [fixStrategy] (fun _ => fixEnv) (fun _ => false) 0 (0 + 1) =
      [runTick fixCfgRealOnce ((fun _ => fixEnv) 0) [fixStrategy]] ∧
    2 ≤ (runTickLoop fixCfgReal [fixStrategy] (fun _ => fixEnv) (fun _ => false) 0
      (0 + 2)).length :=
  interval_zero_single_tick_else_continue fixCfgRealOnce fixCfgReal [fixStrategy]
    [fixStrategy] (fun _ => fixEnv) (fun _ => fixEnv) (fun _ => false) (fun _ => false)
    0 0 0 0 rfl rfl rfl rfl rfl rfl rfl
